import Mathlib

/-!
Verification development for the nanoscheme interpreter (`src/src/expr.cpp`,
`src/src/env.cpp`, `src/src/parser.cpp`, `src/src/nscm.cpp`).

The C++ core is shallowly embedded below:

* C++ `double` values are modelled as dyadic rationals `Dy` (a mantissa
  `m : Int` and a binary exponent `e : Int`, denoting `m * 2 ^ e`), and the
  rounding performed by IEEE-754 binary64 arithmetic is made explicit by
  `flDy`, which rounds an exact dyadic value to at most 53 significant bits
  with round-to-nearest, ties-to-even.  This is exact for the binary64
  format on its normal range; overflow to infinity, subnormal underflow,
  negative zero and NaNs are outside the range exercised by any theorem in
  this file and are not modelled.
* `int64_t` is modelled as unbounded `Int`; C++ signed overflow is
  undefined behaviour and no theorem below relies on wrapped arithmetic.
  C++ `/` and `%` on integers truncate toward zero and are modelled by
  `Int.tdiv` and `Int.tmod`.
* The `Env*` heap is modelled as a `Store`, a list of frames addressed by
  position; a `new Env` allocation appends a frame.  Throwing C++ code is
  modelled in `EStateM String Store`, whose error results keep the store,
  matching the fact that a C++ exception unwinds without undoing heap
  mutations.
* Recursion in the evaluator is fuel-indexed; running out of fuel yields
  the distinguished error string `"Out of fuel"`, which the source never
  throws, so genuine interpreter failures are never conflated with fuel
  exhaustion.
-/

namespace Nscm

/-! ### Binary64 model: dyadic rationals with explicit rounding -/

/-- Number of binary digits of `n`, computed with an explicit fuel argument
(`fuel ≥ log2 n` always holds for `fuel = n`, see `bitLen`). -/
def bitLenAux : Nat → Nat → Nat
  | 0, _ => 0
  | f+1, n => if n = 0 then 0 else bitLenAux f (n / 2) + 1

/-- Number of binary digits of `n`: `bitLen 0 = 0` and
`2 ^ (bitLen n - 1) ≤ n < 2 ^ bitLen n` for `n ≠ 0`. -/
def bitLen (n : Nat) : Nat := bitLenAux n n

/-- Round the rational `a / b` (with `b ≠ 0`) to the nearest integer,
breaking ties toward the even integer.  This is the rounding rule of
IEEE-754 round-to-nearest, ties-to-even, expressed on a scaled quotient. -/
def divNearestEven (a b : Nat) : Nat :=
  let q := a / b
  let r := a % b
  if b < 2 * r then q + 1
  else if 2 * r < b then q
  else if q % 2 = 0 then q else q + 1

/-- A dyadic rational `m * 2 ^ e`: the value model for C++ `double`.
Every finite binary64 value is such a number. -/
structure Dy where
  m : Int
  e : Int

/-- Round the exact dyadic value `m * 2 ^ e` to at most 53 significant
bits (round-to-nearest, ties-to-even): the rounding applied by every
IEEE-754 binary64 operation to its exact result. -/
def flDy (m e : Int) : Dy :=
  let n := m.natAbs
  let k := bitLen n - 53
  if k = 0 then ⟨m, e⟩
  else ⟨m.sign * (divNearestEven n (2 ^ k) : Nat), e + (k : Int)⟩

/-- Conversion `int64_t → double` (rounds for magnitudes above `2 ^ 53`). -/
def intToDy (i : Int) : Dy := flDy i 0

/-- Binary64 addition: round the exact sum. -/
def addDy (x y : Dy) : Dy :=
  if x.e ≤ y.e then flDy (x.m + y.m * 2 ^ (y.e - x.e).toNat) x.e
  else flDy (x.m * 2 ^ (x.e - y.e).toNat + y.m) y.e

/-- Binary64 subtraction: round the exact difference. -/
def subDy (x y : Dy) : Dy :=
  if x.e ≤ y.e then flDy (x.m - y.m * 2 ^ (y.e - x.e).toNat) x.e
  else flDy (x.m * 2 ^ (x.e - y.e).toNat - y.m) y.e

/-- Binary64 multiplication: round the exact product. -/
def mulDy (x y : Dy) : Dy := flDy (x.m * y.m) (x.e + y.e)

/-- Round the positive rational `(n1 / n2) * 2 ^ E` (`n1, n2 ≥ 1`) to 53
significant bits.  Used only by binary64 division, whose exact quotient is
in general not dyadic. -/
def divRoundPos (n1 n2 : Nat) (E : Int) : Dy :=
  let sh : Int := 53 + (bitLen n2 : Int) - (bitLen n1 : Int)
  let A := n1 * 2 ^ (max sh 0).toNat
  let B := n2 * 2 ^ (max (-sh) 0).toNat
  if A / B < 2 ^ 53 then ⟨(divNearestEven A B : Nat), E - sh⟩
  else ⟨(divNearestEven A (B * 2) : Nat), E - sh + 1⟩

/-- Binary64 division: round the exact quotient.  The `y.m = 0` branch is
unreachable from the interpreter, which tests the divisor for zero first. -/
def divDy (x y : Dy) : Dy :=
  if x.m = 0 then ⟨0, 0⟩
  else if y.m = 0 then ⟨0, 0⟩
  else
    let d := divRoundPos x.m.natAbs y.m.natAbs (x.e - y.e)
    if (0 < x.m) = (0 < y.m) then d else ⟨-d.m, d.e⟩

/-- Exact order comparison of two dyadic values (IEEE comparison of finite
doubles is exact). -/
def dyLt (x y : Dy) : Bool :=
  if x.e ≤ y.e then decide (x.m < y.m * 2 ^ (y.e - x.e).toNat)
  else decide (x.m * 2 ^ (x.e - y.e).toNat < y.m)

/-- Exact order comparison (`≤`) of two dyadic values. -/
def dyLe (x y : Dy) : Bool :=
  if x.e ≤ y.e then decide (x.m ≤ y.m * 2 ^ (y.e - x.e).toNat)
  else decide (x.m * 2 ^ (x.e - y.e).toNat ≤ y.m)

/-- `std::floor(s) == s`: the dyadic value is an integer. -/
def dyIsInt (d : Dy) : Bool :=
  if 0 ≤ d.e then true else decide (d.m % ((2 : Int) ^ (-d.e).toNat) = 0)

/-- `int64_t(s)`: truncating conversion of a double to an integer (exact
whenever `dyIsInt` holds, which is the only situation the interpreter
converts in). -/
def dyToInt (d : Dy) : Int :=
  if 0 ≤ d.e then d.m * 2 ^ d.e.toNat else d.m.tdiv (2 ^ (-d.e).toNat)

/-- The invariant carried through the `+`/`*` double accumulators on an
all-integer computation: the dyadic value is exactly the integer `z`, with
a nonnegative exponent and a mantissa of at most 53 bits. -/
def DyRep (d : Dy) (z : Int) : Prop :=
  0 ≤ d.e ∧ d.m * 2 ^ d.e.toNat = z ∧ d.m.natAbs ≤ 2 ^ 53

/-! ### Data model (`expr.h`)

`ExpType` is the inductive tag of `Expr`; `LitType` and `PrimType` mirror
the C++ enums (the `SIN .. ABS` tags exist in the enum and parsing table but
have no case in `Expr::eval_prim`, falling to its `default:` branch). -/

inductive LitType where
  | TRUE
  | FALSE
  | NIL
deriving DecidableEq

inductive PrimType where
  | IF
  | DEFINE
  | SET
  | ADD
  | SUB
  | MUL
  | DIV
  | MOD
  | GT
  | LT
  | GE
  | LE
  | SIN
  | COS
  | TAN
  | SQRT
  | LOG
  | MAX
  | MIN
  | ABS
  | IS_NUM
  | IS_SYM
  | IS_PROC
  | IS_LIST
  | IS_STR
  | IS_BOOL
  | LAMBDA
  | CAR
  | CDR
  | CONS
  | IS_NULL
  | MAP
  | FILTER
  | APPEND
deriving DecidableEq

/-- The `Expr` tagged union of `expr.h`.  Pointer payloads
(`std::vector<Expr*>`, the symbol's `Expr*`, the closure's `Env*`) become a
`List Expr`, an `Option Expr` (null pointer = `none`) and a frame index
into the `Store`. -/
inductive Expr where
  | int (i : Int)
  | float (f : Dy)
  | str (s : String)
  | lit (l : LitType)
  | list (l : List Expr)
  | sym (name : String) (val : Option Expr)
  | prim (t : PrimType) (args : List Expr)
  | proc (params : Expr) (body : Expr) (env : Nat)

/-! ### Environments (`env.cpp`)

An `Env` object is a frame: an `unordered_map<string, Expr*>` (modelled as
an association list with insert-or-assign) plus a `tail` pointer.  The heap
of all allocated frames is a `Store`; a frame's `tail` is the index of its
parent frame. -/

/-- One environment frame. -/
structure Frame where
  entries : List (String × Option Expr)
  tail : Option Nat

/-- The heap of allocated environment frames, addressed by position.  In
every execution of the source a frame's `tail` points to an earlier
allocation, so chains are acyclic and shorter than the store. -/
abbrev Store := List Frame

/-- `unordered_map::find`: `none` when the key is absent, `some v` when the
key is bound to the pointer `v` (which may itself be null = `none`). -/
def frameFind : List (String × Option Expr) → String → Option (Option Expr)
  | [], _ => none
  | (k, v) :: rest, name => if k = name then some v else frameFind rest name

/-- `frame[k] = v`: insert-or-assign on the association list. -/
def frameInsert : List (String × Option Expr) → String → Option Expr →
    List (String × Option Expr)
  | [], k, v => [(k, v)]
  | (k0, v0) :: rest, k, v =>
      if k0 = k then (k, v) :: rest else (k0, v0) :: frameInsert rest k v

/-- `Env::find_var` (env.cpp:39): return the binding found in the first
frame of the chain that contains the key — which may be the null pointer —
and the null pointer when no frame contains it.  The two null outcomes are
indistinguishable to the caller, exactly as in the source.  The fuel bounds
the chain walk; `findVar` supplies fuel `st.length`, enough for every
acyclic chain. -/
def findVarAux (st : Store) : Nat → Nat → String → Option Expr
  | 0, _, _ => none
  | fuel+1, envId, name =>
    match st[envId]? with
    | none => none
    | some fr =>
      match frameFind fr.entries name with
      | some v => v
      | none =>
        match fr.tail with
        | some t => findVarAux st fuel t name
        | none => none

/-- `Env::find_var` entry point. -/
def findVar (st : Store) (envId : Nat) (name : String) : Option Expr :=
  findVarAux st st.length envId name

/-- `Env::is_in_env` (env.cpp:30): does any frame of the chain contain the
key (even bound to the null pointer)? -/
def isInEnvAux (st : Store) : Nat → Nat → String → Bool
  | 0, _, _ => false
  | fuel+1, envId, name =>
    match st[envId]? with
    | none => false
    | some fr =>
      if (frameFind fr.entries name).isSome then true
      else
        match fr.tail with
        | some t => isInEnvAux st fuel t name
        | none => false

/-- `Env::is_in_env` entry point. -/
def isInEnv (st : Store) (envId : Nat) (name : String) : Bool :=
  isInEnvAux st st.length envId name

/-- `Env::add_key_value_pair` (env.cpp:26): assign in the given frame only;
no parent traversal. -/
def addKeyValuePair (st : Store) (envId : Nat) (k : String) (v : Option Expr) :
    Store :=
  match st[envId]? with
  | none => st
  | some fr => st.set envId { fr with entries := frameInsert fr.entries k v }

/-! ### Evaluator (`expr.cpp`)

`Expr::eval` dispatches on the tag; `eval_sym`, `eval_proc`, `eval_prim`
are the per-tag evaluators.  All error strings are the ones thrown by the
source; `"Out of fuel"` marks fuel exhaustion (never thrown by the source)
and `"Unexpected error"` models a `std::out_of_range` from a bounds-checked
`vector::at`, which the drivers report with that very text. -/

/-- `>`, `<`, `>=`, `<=` share this value-level dispatch: exact comparison
on two ints, comparison through a converted double otherwise
(expr.cpp:282-360). -/
def cmpVals (errMsg : String) (intCmp : Int → Int → Bool)
    (dyCmp : Dy → Dy → Bool) : Expr → Expr → Except String Expr
  | .int a, .int b => .ok (.lit (if intCmp a b then .TRUE else .FALSE))
  | .float x, .int b => .ok (.lit (if dyCmp x (intToDy b) then .TRUE else .FALSE))
  | .int a, .float y => .ok (.lit (if dyCmp (intToDy a) y then .TRUE else .FALSE))
  | .float x, .float y => .ok (.lit (if dyCmp x y then .TRUE else .FALSE))
  | _, _ => .error errMsg

/-- Lift a pure `Except` result into the store-passing monad. -/
def liftE {α : Type} : Except String α → EStateM String Store α
  | .ok a => pure a
  | .error msg => throw msg

mutual

/-- `Expr::eval` (expr.cpp:529): atoms evaluate to themselves; symbols,
primitives and procedures dispatch to their evaluators. -/
def evalExpr : Nat → Expr → Option (List Expr) → Nat → EStateM String Store Expr
  | 0, _, _, _ => throw "Out of fuel"
  | f+1, e, bindings, envId =>
    match e with
    | .int _ => pure e
    | .float _ => pure e
    | .str _ => pure e
    | .list _ => pure e
    | .lit _ => pure e
    | .prim t args => evalPrim f t args bindings envId
    | .sym name _ => do
        let st ← get
        match findVar st envId name with
        | some v => evalExpr f v bindings envId
        | none => throw ("Unknown identifier: '" ++ name ++ "'")
    | .proc params body penv => evalProc f params body penv bindings envId
termination_by structural f => f

/-- `Expr::eval_proc` (expr.cpp:80): arity guard, fresh child frame of the
captured environment, then either the deferred-recursive-call path (body is
a symbol) or the plain binding loop.  Accessing `params->list` on a
non-list `params` is undefined behaviour in the source (never reachable
through its constructors) and is modelled as an error. -/
def evalProc : Nat → Expr → Expr → Nat → Option (List Expr) → Nat →
    EStateM String Store Expr
  | 0, _, _, _, _, _ => throw "Out of fuel"
  | f+1, params, body, penv, bindings, envId =>
    match params with
    | .list ps =>
      match bindings with
      | none => throw "Non-matching number of args for procedure call"
      | some bs =>
        if bs.length = ps.length then do
          let st ← get
          let newId := st.length
          set (st ++ [({ entries := [], tail := some penv } : Frame)])
          match body with
          | .sym n v => do
              let caller ← evalExpr f (.sym n v) bindings envId
              match caller with
              | .proc cparams cbody _ =>
                match cparams with
                | .list cps => do
                    let vs ← evalProcRecArgs f ps cps bindings envId newId
                    evalExpr f cbody (some vs) newId
                | _ => throw "Unexpected error"
              | _ => throw "Eval failed: Not procedure type!"
          | _ => do
              evalProcBindLoop f ps bs bindings penv newId
              evalExpr f body bindings newId
        else throw "Non-matching number of args for procedure call"
    | _ => throw "Unexpected error"
termination_by structural f => f

/-- Binding loop of the non-recursive procedure path (expr.cpp:139-144):
each parameter must be a string token; the caller-side binding expression
is evaluated against the closure's captured environment with the original
bindings, and bound in the fresh frame.  The fall-through case models the
bounds-checked `vector::at`. -/
def evalProcBindLoop : Nat → List Expr → List Expr → Option (List Expr) →
    Nat → Nat → EStateM String Store Unit
  | 0, _, _, _, _, _ => throw "Out of fuel"
  | _+1, [], [], _, _, _ => pure ()
  | f+1, p :: ps, b :: bs, bindings, envId, newId =>
    match p with
    | .str s => do
        let v ← evalExpr f b bindings envId
        modify (fun st => addKeyValuePair st newId s (some v))
        evalProcBindLoop f ps bs bindings envId newId
    | _ => throw "Non-string typed argument"
  | _+1, _, _, _, _, _ => throw "Unexpected error"
termination_by structural f => f

/-- Binding loop of the deferred-recursive-call path (expr.cpp:118-128):
pairs the outer parameter expressions with the resolved callee's parameter
names, evaluating each argument in the outer environment; a callee with
fewer parameters trips `vector::at` (modelled as `"Unexpected error"`). -/
def evalProcRecArgs : Nat → List Expr → List Expr → Option (List Expr) →
    Nat → Nat → EStateM String Store (List Expr)
  | 0, _, _, _, _, _ => throw "Out of fuel"
  | _+1, [], _, _, _, _ => pure []
  | f+1, a :: as, cps, bindings, envId, newId =>
    match cps with
    | [] => throw "Unexpected error"
    | cp :: cps2 =>
      match cp with
      | .str s => do
          let v ← evalExpr f a bindings envId
          modify (fun st => addKeyValuePair st newId s (some v))
          let vs ← evalProcRecArgs f as cps2 bindings envId newId
          pure (v :: vs)
      | _ => throw "Non-string typed argument"
termination_by structural f => f

/-- `+` accumulator loop (expr.cpp:208-214): `double s` folds every
evaluated argument; an int argument is first converted to double. -/
def evalAddLoop : Nat → List Expr → Option (List Expr) → Nat → Dy →
    EStateM String Store Dy
  | 0, _, _, _, _ => throw "Out of fuel"
  | _+1, [], _, _, s => pure s
  | f+1, a :: as, bindings, envId, s => do
      let v ← evalExpr f a bindings envId
      match v with
      | .int i => evalAddLoop f as bindings envId (addDy s (intToDy i))
      | .float x => evalAddLoop f as bindings envId (addDy s x)
      | _ => throw "Invalid args type for '+'"
termination_by structural f => f

/-- `*` accumulator loop (expr.cpp:236-242): `double p` starting at `1.0`. -/
def evalMulLoop : Nat → List Expr → Option (List Expr) → Nat → Dy →
    EStateM String Store Dy
  | 0, _, _, _, _ => throw "Out of fuel"
  | _+1, [], _, _, s => pure s
  | f+1, a :: as, bindings, envId, s => do
      let v ← evalExpr f a bindings envId
      match v with
      | .int i => evalMulLoop f as bindings envId (mulDy s (intToDy i))
      | .float x => evalMulLoop f as bindings envId (mulDy s x)
      | _ => throw "Invalid args type for '*'"
termination_by structural f => f

/-- `map` loop (expr.cpp:473-480): apply the procedure to each element via
a one-element bindings vector; collect the results. -/
def evalMapLoop : Nat → Expr → List Expr → Nat → EStateM String Store (List Expr)
  | 0, _, _, _ => throw "Out of fuel"
  | _+1, _, [], _ => pure []
  | f+1, fn, elem :: rest, envId => do
      let applied ← evalExpr f fn (some [elem]) envId
      let others ← evalMapLoop f fn rest envId
      pure (applied :: others)
termination_by structural f => f

/-- `filter` loop (expr.cpp:492-500): the decider must evaluate to a
literal; the original element is kept when it returns `#t`. -/
def evalFilterLoop : Nat → Expr → List Expr → Nat → EStateM String Store (List Expr)
  | 0, _, _, _ => throw "Out of fuel"
  | _+1, _, [], _ => pure []
  | f+1, fn, elem :: rest, envId => do
      let applied ← evalExpr f fn (some [elem]) envId
      match applied with
      | .lit l => do
          let others ← evalFilterLoop f fn rest envId
          if l = .TRUE then pure (elem :: others) else pure others
      | _ => throw "Decider function does not return lit type"
termination_by structural f => f

/-- `Expr::eval_prim` (expr.cpp:154): one case per primitive tag.  The
math tags (`SIN` .. `ABS`) have no case in the source switch and fall to
its `default:` branch. -/
def evalPrim : Nat → PrimType → List Expr → Option (List Expr) → Nat →
    EStateM String Store Expr
  | 0, _, _, _, _ => throw "Out of fuel"
  | f+1, pt, args, bindings, envId =>
    match pt with
    | .DEFINE =>
      match args with
      | [a0, a1] => do
        let name ← evalExpr f a0 bindings envId
        match name with
        | .str s => do
            modify (fun st => addKeyValuePair st envId s (some a1))
            pure (.lit .NIL)
        | _ => throw "Non-string type variable name for 'define'"
      | _ => throw "Invalid num args for 'define'"
    | .SET =>
      match args with
      | [a0, a1] => do
        let name ← evalExpr f a0 bindings envId
        match name with
        | .str s => do
            let st ← get
            if isInEnv st envId s then do
              modify (fun st2 => addKeyValuePair st2 envId s (some a1))
              pure (.lit .NIL)
            else throw ("Unbounded variable '" ++ s ++ "'")
        | _ => throw "Non-string type variable name for 'set!'"
      | _ => throw "Invalid num args for 'set'"
    | .LAMBDA =>
      match args with
      | [a0, a1] =>
        match a0 with
        | .list _ => pure (.proc a0 a1 envId)
        | _ => throw "Non-list typed args"
      | _ => throw "Invalid num args for 'lambda'"
    | .IF =>
      match args with
      | [c, t, u] => do
        let cond ← evalExpr f c bindings envId
        match cond with
        | .lit .TRUE => evalExpr f t bindings envId
        | .int i =>
            if 0 < i then evalExpr f t bindings envId
            else evalExpr f u bindings envId
        | .float d =>
            if dyLt ⟨0, 0⟩ d then evalExpr f t bindings envId
            else evalExpr f u bindings envId
        | _ => evalExpr f u bindings envId
      | _ => throw "Invalid num args for 'if'"
    | .ADD => do
        let s ← evalAddLoop f args bindings envId ⟨0, 0⟩
        if dyIsInt s then pure (.int (dyToInt s)) else pure (.float s)
    | .SUB =>
      match args with
      | [a0, a1] => do
        let v1 ← evalExpr f a0 bindings envId
        let v2 ← evalExpr f a1 bindings envId
        match v1, v2 with
        | .int a, .int b => pure (.int (a - b))
        | .float x, .int b => pure (.float (subDy x (intToDy b)))
        | .int a, .float y => pure (.float (subDy (intToDy a) y))
        | .float x, .float y => pure (.float (subDy x y))
        | _, _ => throw "Invalid args type for '-'"
      | _ => throw "Invalid num args for '-'"
    | .MUL => do
        let s ← evalMulLoop f args bindings envId ⟨1, 0⟩
        if dyIsInt s then pure (.int (dyToInt s)) else pure (.float s)
    | .DIV =>
      match args with
      | [a0, a1] => do
        let v1 ← evalExpr f a0 bindings envId
        let v2 ← evalExpr f a1 bindings envId
        let divisorZero : Bool :=
          match v2 with
          | .int i => decide (i = 0)
          | .float d => decide (d.m = 0)
          | _ => false
        if divisorZero then throw "Division by zero"
        else
          match v1, v2 with
          | .int a, .int b => pure (.int (a.tdiv b))
          | .float x, .int b => pure (.float (divDy x (intToDy b)))
          | .int a, .float y => pure (.float (divDy (intToDy a) y))
          | .float x, .float y => pure (.float (divDy x y))
          | _, _ => throw "Invalid args type for '/'"
      | _ => throw "Invalid num args for '/'"
    | .MOD =>
      match args with
      | [a0, a1] => do
        let v1 ← evalExpr f a0 bindings envId
        let v2 ← evalExpr f a1 bindings envId
        let divisorZero : Bool :=
          match v2 with
          | .int i => decide (i = 0)
          | .float d => decide (d.m = 0)
          | _ => false
        if divisorZero then throw "Division by zero"
        else
          match v1, v2 with
          | .int a, .int b => pure (.int (a.tmod b))
          | _, _ => throw "Invalid args type for 'modulo'"
      | _ => throw "Invalid num args for 'modulo'"
    | .GT =>
      match args with
      | [a0, a1] => do
        let v1 ← evalExpr f a0 bindings envId
        let v2 ← evalExpr f a1 bindings envId
        liftE (cmpVals "Invalid args type for '>'"
          (fun a b => decide (b < a)) (fun x y => dyLt y x) v1 v2)
      | _ => throw "Invalid num args for '>'"
    | .LT =>
      match args with
      | [a0, a1] => do
        let v1 ← evalExpr f a0 bindings envId
        let v2 ← evalExpr f a1 bindings envId
        liftE (cmpVals "Invalid args type for '<'"
          (fun a b => decide (a < b)) (fun x y => dyLt x y) v1 v2)
      | _ => throw "Invalid num args for '<'"
    | .GE =>
      match args with
      | [a0, a1] => do
        let v1 ← evalExpr f a0 bindings envId
        let v2 ← evalExpr f a1 bindings envId
        liftE (cmpVals "Invalid args type for '>='"
          (fun a b => decide (b ≤ a)) (fun x y => dyLe y x) v1 v2)
      | _ => throw "Invalid num args for '>='"
    | .LE =>
      match args with
      | [a0, a1] => do
        let v1 ← evalExpr f a0 bindings envId
        let v2 ← evalExpr f a1 bindings envId
        liftE (cmpVals "Invalid args type for '<='"
          (fun a b => decide (a ≤ b)) (fun x y => dyLe x y) v1 v2)
      | _ => throw "Invalid num args for '<='"
    | .IS_NUM =>
      match args with
      | [a0] => do
        let v ← evalExpr f a0 bindings envId
        match v with
        | .int _ => pure (.lit .TRUE)
        | .float _ => pure (.lit .TRUE)
        | _ => pure (.lit .FALSE)
      | _ => throw "Invalid num args for 'number?'"
    | .IS_SYM =>
      match args with
      | [a0] => do
        let v ← evalExpr f a0 bindings envId
        match v with
        | .sym _ _ => pure (.lit .TRUE)
        | _ => pure (.lit .FALSE)
      | _ => throw "Invalid num args for 'symbol?'"
    | .IS_LIST =>
      match args with
      | [a0] => do
        let v ← evalExpr f a0 bindings envId
        match v with
        | .list _ => pure (.lit .TRUE)
        | _ => pure (.lit .FALSE)
      | _ => throw "Invalid num args for 'list?'"
    | .IS_PROC =>
      match args with
      | [a0] => do
        let v ← evalExpr f a0 bindings envId
        match v with
        | .proc _ _ _ => pure (.lit .TRUE)
        | _ => pure (.lit .FALSE)
      | _ => throw "Invalid num args for 'procedure?'"
    | .IS_BOOL =>
      match args with
      | [a0] => do
        let v ← evalExpr f a0 bindings envId
        match v with
        | .lit _ => pure (.lit .TRUE)
        | _ => pure (.lit .FALSE)
      | _ => throw "Invalid num args for 'boolean?'"
    | .IS_STR =>
      match args with
      | [a0] => do
        let v ← evalExpr f a0 bindings envId
        match v with
        | .str _ => pure (.lit .TRUE)
        | _ => pure (.lit .FALSE)
      | _ => throw "Invalid num args for 'string?'"
    | .CAR =>
      match args with
      | [a0] => do
        let v ← evalExpr f a0 bindings envId
        match v with
        | .list l =>
          match l with
          | [] => pure (.lit .NIL)
          | x :: _ => evalExpr f x bindings envId
        | _ => throw "Argument for 'car' is not list type"
      | _ => throw "Invalid num args for 'car'"
    | .CDR =>
      match args with
      | [a0] => do
        let v ← evalExpr f a0 bindings envId
        match v with
        | .list l =>
          match l with
          | [] => pure (.lit .NIL)
          | [_] => pure (.lit .NIL)
          | _ :: rest => pure (.list rest)
        | _ => throw "Argument for 'cdr' is not list type"
      | _ => throw "Invalid num args for 'cdr'"
    | .CONS =>
      match args with
      | [a0, a1] => do
        let v1 ← evalExpr f a0 bindings envId
        let v2 ← evalExpr f a1 bindings envId
        match v2 with
        | .list l =>
          match v1 with
          | .list _ => throw "Invalid arguments type for 'cons'"
          | _ => pure (.list (v1 :: l))
        | _ => throw "Invalid arguments type for 'cons'"
      | _ => throw "Invalid num args for 'cons'"
    | .APPEND =>
      match args with
      | [a0, a1] => do
        let v1 ← evalExpr f a0 bindings envId
        let v2 ← evalExpr f a1 bindings envId
        match v1, v2 with
        | .list l1, .list l2 => pure (.list (l1 ++ l2))
        | _, _ => throw "Invalid arguments type for 'append'"
      | _ => throw "Invalid num args for 'append'"
    | .MAP =>
      match args with
      | [a0, a1] => do
        let fn ← evalExpr f a0 bindings envId
        let iter ← evalExpr f a1 bindings envId
        match fn, iter with
        | .proc _ _ _, .list l => do
            let res ← evalMapLoop f fn l envId
            pure (.list res)
        | _, _ => throw "Invalid arguments type for 'map'"
      | _ => throw "Invalid num args for 'map'"
    | .FILTER =>
      match args with
      | [a0, a1] => do
        let fn ← evalExpr f a0 bindings envId
        let iter ← evalExpr f a1 bindings envId
        match fn, iter with
        | .proc _ _ _, .list l => do
            let res ← evalFilterLoop f fn l envId
            pure (.list res)
        | _, _ => throw "Invalid arguments type for 'filter'"
      | _ => throw "Invalid num args for 'filter'"
    | .IS_NULL =>
      match args with
      | [a0] => do
        let v ← evalExpr f a0 bindings envId
        match v with
        | .list l =>
          match l with
          | [] => pure (.lit .TRUE)
          | _ => pure (.lit .FALSE)
        | _ => throw "Invalid argument type for 'null?'"
      | _ => throw "Invalid num args for 'null?'"
    | .SIN | .COS | .TAN | .SQRT | .LOG | .MAX | .MIN | .ABS =>
        throw "Invalid primitive"
termination_by structural f => f

end

/-! ### Printer (`Expr::print_to_console`, expr.cpp:550)

The printer is modelled as a fueled function producing the text written to
stdout, `none` standing for the undefined outcome of the `LIST` case on an
empty vector: with `list->size() == 0` the loop bound `list->size() - 1`
underflows (`size_t`), and the final `list->at(i)` indexes element 0 of an
empty vector.  A `SYMBOL` with a null payload writes a message to stderr
only, so its stdout contribution is the empty string.  The decimal
rendering C++ iostreams give a `double` is not modelled; `printDy` renders
the exact dyadic value instead (no theorem below depends on it). -/

/-- Abstracted stdout rendering of a double value. -/
def printDy (d : Dy) : String := toString d.m ++ "b" ++ toString d.e

mutual

/-- `Expr::print_to_console` (expr.cpp:550), as the `Option String` of
text written to stdout; `none` models the out-of-bounds empty-list case
(and fuel exhaustion). -/
def printExprF : Nat → Expr → Option String
  | 0, _ => none
  | f+1, e =>
    match e with
    | .int i => some (toString i)
    | .float d => some (printDy d)
    | .str s => some s
    | .proc _ _ _ => some "<procedure>"
    | .sym _ v =>
      match v with
      | some e2 => printExprF f e2
      | none => some ""
    | .prim t _ =>
      match t with
      | .LAMBDA => some "<closure>"
      | .DEFINE => some ""
      | .SET => some ""
      | _ => some "<primitive>"
    | .lit l =>
      match l with
      | .TRUE => some "#t"
      | .FALSE => some "#f"
      | .NIL => some "()"
    | .list l =>
      match l with
      | [] => none
      | _ =>
        match printListF f l with
        | some parts => some ("(" ++ String.intercalate " " parts ++ ")")
        | none => none
termination_by structural f => f

/-- Renders each element of a (non-empty) list; the source interleaves a
single space between successive elements, i.e. `String.intercalate " "`. -/
def printListF : Nat → List Expr → Option (List String)
  | 0, _ => none
  | _+1, [] => some []
  | f+1, e :: rest =>
    match printExprF f e with
    | some s =>
      match printListF f rest with
      | some ss => some (s :: ss)
      | none => none
    | none => none
termination_by structural f => f

end

/-! ### AST-builder procedure calls (`make_proc_call`, parser.cpp:308)

`build_AST` itself is string-parsing glue over the tokeniser; it is
abstracted here as a parameter `B`, so theorems about `makeProcCall`
quantify over every possible builder.  The control flow below is the
source's: the arity guard comes first, before any token is built. -/

def makeProcCall (B : String → EStateM String Store Expr) (f : Nat)
    (tokens : List String) (envId : Nat) : EStateM String Store Expr :=
  if tokens.length < 2 then throw "Too few arguments for procedure call"
  else
    match tokens with
    | [] => throw "Too few arguments for procedure call"
    | t0 :: rest => do
      let caller ← B t0
      let bindings ← rest.mapM B
      match caller with
      | .proc _ _ _ => evalExpr f caller (some bindings) envId
      | .prim .LAMBDA _ => do
          let p ← evalExpr f caller (some bindings) envId
          evalExpr f p (some bindings) envId
      | .sym _ _ => do
          let st ← get
          match isInEnv st envId t0, findVar st envId t0 with
          | true, some fe => pure fe
          | true, none => pure (.proc (.list bindings) caller envId)
          | false, _ => throw ("Unknown procedure identifier: '" ++ t0 ++ "'")
      | _ => throw ("'" ++ t0 ++ "' cannot be procedurally called")

/-! ### File evaluation driver (`eval_files`, nscm.cpp:61)

Each file's top-level forms are processed inside a single `try` block:
a `PRIM` form is evaluated against the shared global environment and its
value printed, any other form is printed as-is.  A thrown evaluation error
is caught *outside* the loop over the file's forms, so it prints one
diagnostic and abandons the rest of that file; the loop over files then
proceeds to the next file with the same global environment (heap mutations
made before the throw persist). -/

/-- One line of driver output: a printed value or a printed diagnostic. -/
inductive Output where
  | val (e : Expr)
  | err (msg : String)

/-- The per-file loop of `eval_files` (nscm.cpp:78-85) together with its
enclosing `try`/`catch` (nscm.cpp:76-90). -/
def evalFormsInFile (f : Nat) : List Expr → Nat → Store → List Output × Store
  | [], _, st => ([], st)
  | form :: rest, envId, st =>
    match form with
    | .prim t args =>
      match evalExpr (f+1) (.prim t args) none envId st with
      | .ok v st2 =>
          let (outs, st3) := evalFormsInFile f rest envId st2
          (Output.val v :: outs, st3)
      | .error msg st2 => ([Output.err msg], st2)
    | _ =>
      let (outs, st2) := evalFormsInFile f rest envId st
      (Output.val form :: outs, st2)

/-- The loop of `eval_files` over its input files (nscm.cpp:65-97): a
single global environment is created before the loop and shared by every
file. -/
def evalFiles (f : Nat) : List (List Expr) → Nat → Store → List (List Output) × Store
  | [], _, st => ([], st)
  | file :: files, envId, st =>
      let (outs, st2) := evalFormsInFile f file envId st
      let (rest, st3) := evalFiles f files envId st2
      (outs :: rest, st3)


/-! ### Helper lemmas

Application-level equations for the `EStateM` combinators, environment
lookup/insert laws, the bit-length bounds behind `flDy`, and the
exact-representation invariant `DyRep` carried through the arithmetic
accumulators. -/

lemma bind_apply {α β : Type} (x : EStateM String Store α)
    (k : α → EStateM String Store β) (s : Store) :
    (x >>= k) s = match x s with
      | .ok a s2 => k a s2
      | .error e s2 => .error e s2 := by
  cases hx : x s <;> simp [Bind.bind, EStateM.bind, hx]

lemma pure_apply {α : Type} (a : α) (s : Store) :
    (pure a : EStateM String Store α) s = .ok a s := rfl

lemma throw_apply {α : Type} (msg : String) (s : Store) :
    (throw msg : EStateM String Store α) s = .error msg s := rfl

lemma get_apply (s : Store) : (get : EStateM String Store Store) s = .ok s s := rfl

lemma modify_apply (g : Store → Store) (s : Store) :
    (modify g : EStateM String Store PUnit) s = .ok ⟨⟩ (g s) := rfl

lemma set_apply (s0 s : Store) :
    (set s0 : EStateM String Store PUnit) s = .ok ⟨⟩ s0 := rfl




lemma dyLt_zero_iff (d : Dy) : dyLt ⟨0, 0⟩ d = true ↔ 0 < d.m := by
  by_cases h : ((⟨0, 0⟩ : Dy)).e ≤ d.e
  · have h2 : (0:Int) < 2 ^ (d.e - (⟨0, 0⟩ : Dy).e).toNat := by positivity
    simp only [dyLt, if_pos h, decide_eq_true_eq]
    constructor
    · intro hlt
      by_contra hle
      push_neg at hle
      nlinarith
    · intro hm
      nlinarith
  · simp only [dyLt, if_neg h, decide_eq_true_eq]
    constructor
    · intro hlt
      simpa using hlt
    · intro hm
      simpa using hm

/-- Claim C2: an `if` form takes exactly 3 arguments (otherwise the arity
error is thrown with the store untouched); the condition is evaluated
first and its failure propagates unchanged; when the condition's value is
`Lit TRUE`, an `Int` greater than 0, or a `Float` greater than 0, the
result is exactly the evaluation of the then-branch in the
post-condition store, and for every other value (false, nil, zero,
negatives, strings, lists, procedures, symbols) it is exactly the
evaluation of the else-branch — so the unchosen branch is never
evaluated. -/
theorem C2_if_semantics :
    (∀ f args bindings envId st, args.length ≠ 3 →
        evalPrim (f+1) .IF args bindings envId st
          = .error "Invalid num args for 'if'" st)
    ∧ (∀ f c t u bindings envId st msg st2,
        evalExpr f c bindings envId st = .error msg st2 →
        evalPrim (f+1) .IF [c, t, u] bindings envId st = .error msg st2)
    ∧ (∀ f c t u bindings envId st v st2,
        evalExpr f c bindings envId st = .ok v st2 →
        ((v = .lit .TRUE ∨ (∃ n, v = .int n ∧ 0 < n) ∨
            (∃ d, v = .float d ∧ 0 < d.m)) →
          evalPrim (f+1) .IF [c, t, u] bindings envId st
            = evalExpr f t bindings envId st2)
        ∧ (¬(v = .lit .TRUE ∨ (∃ n, v = .int n ∧ 0 < n) ∨
            (∃ d, v = .float d ∧ 0 < d.m)) →
          evalPrim (f+1) .IF [c, t, u] bindings envId st
            = evalExpr f u bindings envId st2)) := by
  refine ⟨?_, ?_, ?_⟩
  · intro f args bindings envId st h
    rcases args with _ | ⟨a1, _ | ⟨a2, _ | ⟨a3, _ | ⟨a4, rest⟩⟩⟩⟩
    · simp [evalPrim, throw_apply]
    · simp [evalPrim, throw_apply]
    · simp [evalPrim, throw_apply]
    · simp at h
    · simp [evalPrim, throw_apply]
  · intro f c t u bindings envId st msg st2 h
    simp only [evalPrim, bind_apply, h]
  · intro f c t u bindings envId st v st2 h
    constructor
    · rintro (rfl | ⟨n, rfl, hn⟩ | ⟨d, rfl, hd⟩)
      · simp only [evalPrim, bind_apply, h]
      · simp only [evalPrim, bind_apply, h, hn, if_true]
      · have hlt : dyLt ⟨0, 0⟩ d = true := (dyLt_zero_iff d).2 hd
        simp only [evalPrim, bind_apply, h, hlt, if_true]
    · intro hnot
      cases v with
      | lit l =>
        cases l with
        | TRUE => exact absurd (Or.inl rfl) hnot
        | FALSE => simp only [evalPrim, bind_apply, h]
        | NIL => simp only [evalPrim, bind_apply, h]
      | int n =>
        have hn : ¬ 0 < n := fun hh => hnot (Or.inr (Or.inl ⟨n, rfl, hh⟩))
        simp only [evalPrim, bind_apply, h, hn, if_false]
      | float d =>
        have hd : ¬ 0 < d.m := fun hh => hnot (Or.inr (Or.inr ⟨d, rfl, hh⟩))
        have hlt : dyLt ⟨0, 0⟩ d = false := by
          rw [← Bool.not_eq_true]
          intro hh
          exact hd ((dyLt_zero_iff d).1 hh)
        simp only [evalPrim, bind_apply, h, hlt, Bool.false_eq_true, if_false]
      | str s => simp only [evalPrim, bind_apply, h]
      | list l => simp only [evalPrim, bind_apply, h]
      | sym n vv => simp only [evalPrim, bind_apply, h]
      | prim p a2 => simp only [evalPrim, bind_apply, h]
      | proc p b2 e2 => simp only [evalPrim, bind_apply, h]



lemma addKeyValuePair_get_ne (st : Store) (envId j : Nat) (k : String)
    (v : Option Expr) (hj : j ≠ envId) :
    (addKeyValuePair st envId k v)[j]? = st[j]? := by
  unfold addKeyValuePair
  cases h : st[envId]? with
  | none => rfl
  | some fr => exact List.getElem?_set_ne (fun hh => hj hh.symm)

lemma addKeyValuePair_get_self (st : Store) (envId : Nat) (k : String)
    (v : Option Expr) (fr : Frame) (h : st[envId]? = some fr) :
    (addKeyValuePair st envId k v)[envId]?
      = some { fr with entries := frameInsert fr.entries k v } := by
  have hlt : envId < st.length := by
    by_contra hge
    rw [List.getElem?_eq_none (by omega)] at h
    exact Option.noConfusion h
  unfold addKeyValuePair
  rw [h]
  exact List.getElem?_set_self hlt

/-- Claim C3: evaluating `(set! name expr)` with the name evaluating to
the string `s` fails with the unbound-identifier error exactly when `s`
does not resolve anywhere in the environment chain (`isInEnv`); when it
does resolve, `set!` installs the unevaluated `expr` in the current
(innermost) frame — every other frame of the store is untouched
(shadow-on-write) — and returns `Lit NIL`. -/
theorem C3_set_semantics :
    (∀ f n v bindings envId st s st2,
        evalExpr f n bindings envId st = .ok (.str s) st2 →
        (isInEnv st2 envId s = false →
          evalPrim (f+1) .SET [n, v] bindings envId st
            = .error ("Unbounded variable '" ++ s ++ "'") st2)
        ∧ (isInEnv st2 envId s = true →
          evalPrim (f+1) .SET [n, v] bindings envId st
            = .ok (.lit .NIL) (addKeyValuePair st2 envId s (some v))))
    ∧ (∀ st envId s v j, j ≠ envId →
        (addKeyValuePair st envId s v)[j]? = st[j]?)
    ∧ (∀ st envId s v fr, st[envId]? = some fr →
        (addKeyValuePair st envId s v)[envId]?
          = some { fr with entries := frameInsert fr.entries s v }) := by
  refine ⟨?_, ?_, ?_⟩
  · intro f n v bindings envId st s st2 h
    constructor
    · intro hIn
      simp only [evalPrim, bind_apply, h, get_apply, hIn, Bool.false_eq_true,
        if_false, throw_apply]
    · intro hIn
      simp only [evalPrim, bind_apply, h, get_apply, hIn, if_true,
        modify_apply, pure_apply]
  · intro st envId s v j hj
    exact addKeyValuePair_get_ne st envId j s v hj
  · intro st envId s v fr h
    exact addKeyValuePair_get_self st envId s v fr h

lemma frameFind_frameInsert_self (en : List (String × Option Expr))
    (k : String) (v : Option Expr) :
    frameFind (frameInsert en k v) k = some v := by
  induction en with
  | nil => simp [frameInsert, frameFind]
  | cons hd tl ih =>
    by_cases hk : hd.1 = k
    · simp [frameInsert, hk, frameFind]
    · simp only [frameInsert]
      rw [if_neg hk]
      simp only [frameFind]
      rw [if_neg hk]
      exact ih

lemma findVar_hit (st : Store) (envId : Nat) (name : String) (fr : Frame)
    (v : Expr) (hfr : st[envId]? = some fr)
    (hfind : frameFind fr.entries name = some (some v)) :
    findVar st envId name = some v := by
  have hlt : envId < st.length := by
    by_contra hge
    rw [List.getElem?_eq_none (by omega)] at hfr
    exact Option.noConfusion hfr
  obtain ⟨kk, hk⟩ : ∃ kk, st.length = kk + 1 := ⟨st.length - 1, by omega⟩
  unfold findVar
  rw [hk]
  simp [findVarAux, hfr, hfind]

/-- Claim C5: `(define name expr)` with `name` evaluating to `Str s`
binds the unevaluated expression `expr` (not its value) under `s` in the
environment the define is evaluated in and returns `Lit NIL`; a
subsequent lookup of the symbol `s` evaluates to the evaluation of the
stored expression. -/
theorem C5_define_semantics :
    (∀ f n e bindings envId st s st2,
        evalExpr f n bindings envId st = .ok (.str s) st2 →
        evalPrim (f+1) .DEFINE [n, e] bindings envId st
          = .ok (.lit .NIL) (addKeyValuePair st2 envId s (some e)))
    ∧ (∀ f e bindings envId st2 s fr p,
        st2[envId]? = some fr →
        evalExpr (f+1) (.sym s p) bindings envId
            (addKeyValuePair st2 envId s (some e))
          = evalExpr f e bindings envId (addKeyValuePair st2 envId s (some e))) := by
  constructor
  · intro f n e bindings envId st s st2 h
    simp only [evalPrim, bind_apply, h, modify_apply, pure_apply]
  · intro f e bindings envId st2 s fr p hfr
    have hfind : findVar (addKeyValuePair st2 envId s (some e)) envId s = some e := by
      apply findVar_hit _ _ _ { fr with entries := frameInsert fr.entries s (some e) }
      · exact addKeyValuePair_get_self st2 envId s (some e) fr hfr
      · exact frameFind_frameInsert_self fr.entries s (some e)
    simp only [evalExpr, bind_apply, get_apply, hfind]



/-- Claim C4 (amended): for every non-list value `x` and every argument
evaluating to a *non-empty* list `es`, `(cdr (cons x l))` evaluates to
`List es`, a value equal to the value of `l`.  The original claim also
covers the empty list, but there the source's `cdr` returns `Lit NIL`,
which is a different value from the empty `List`: see
the counterexample. -/
theorem C4_cdr_cons_list :
    ∀ f x l bindings envId st v1 st2 es st3,
      evalExpr f x bindings envId st = .ok v1 st2 →
      (∀ l2, v1 ≠ .list l2) →
      evalExpr f l bindings envId st2 = .ok (.list es) st3 →
      es ≠ [] →
      evalExpr (f+4) (.prim .CDR [.prim .CONS [x, l]]) bindings envId st
        = .ok (.list es) st3 := by
  intro f x l bindings envId st v1 st2 es st3 h1 hv h2 hne
  obtain ⟨e1, es2, rfl⟩ : ∃ e1 es2, es = e1 :: es2 := by
    cases es with
    | nil => exact absurd rfl hne
    | cons a b2 => exact ⟨a, b2, rfl⟩
  have hcons : evalExpr (f+2) (.prim .CONS [x, l]) bindings envId st
      = .ok (.list (v1 :: e1 :: es2)) st3 := by
    have hstep : evalExpr (f+2) (.prim .CONS [x, l]) bindings envId st
        = evalPrim (f+1) .CONS [x, l] bindings envId st := rfl
    rw [hstep]
    simp only [evalPrim, bind_apply, h1, h2]
    cases v1 with
    | list l2 => exact absurd rfl (hv l2)
    | int i => rfl
    | float d => rfl
    | str s => rfl
    | lit l2 => rfl
    | sym n vv => rfl
    | prim p a2 => rfl
    | proc p b2 e2 => rfl
  have hstep2 : evalExpr (f+4) (.prim .CDR [.prim .CONS [x, l]]) bindings envId st
      = evalPrim (f+3) .CDR [.prim .CONS [x, l]] bindings envId st := rfl
  rw [hstep2]
  simp only [evalPrim, bind_apply, hcons, pure_apply]

/-- Claim C4, counterexample to the original statement: for the empty
list, `(cdr (cons 1 (quote ())))` evaluates to `Lit NIL`, which is not
equal to the empty `List` value that `l` evaluates to. -/
theorem C4_cdr_cons_empty_counterexample :
    evalExpr 10 (.prim .CDR [.prim .CONS [.int 1, .list []]]) none 0 []
      = .ok (.lit .NIL) []
    ∧ Expr.lit .NIL ≠ Expr.list [] := ⟨rfl, by simp⟩

/-- Claim C6: `/` takes exactly 2 arguments; once both operands have
been evaluated, the evaluation fails with "Division by zero" exactly when
the divisor's value is `Int 0` or `Float 0.0` (the check precedes the
type dispatch, so it fires even for an invalid dividend); when both
values are ints and the divisor is nonzero it returns the truncated
quotient `Int.tdiv`, e.g. `(/ 10 3)` evaluates to `Int 3` (witness). -/
theorem C6_div_semantics :
    (∀ f args bindings envId st, args.length ≠ 2 →
        evalPrim (f+1) .DIV args bindings envId st
          = .error "Invalid num args for '/'" st)
    ∧ (∀ f a0 a1 bindings envId st v1 st1 v2 st2,
        evalExpr f a0 bindings envId st = .ok v1 st1 →
        evalExpr f a1 bindings envId st1 = .ok v2 st2 →
        (evalPrim (f+1) .DIV [a0, a1] bindings envId st
            = .error "Division by zero" st2
          ↔ (v2 = .int 0 ∨ ∃ d, v2 = .float d ∧ d.m = 0)))
    ∧ (∀ f a0 a1 bindings envId st m st1 n st2,
        evalExpr f a0 bindings envId st = .ok (.int m) st1 →
        evalExpr f a1 bindings envId st1 = .ok (.int n) st2 → n ≠ 0 →
        evalPrim (f+1) .DIV [a0, a1] bindings envId st
          = .ok (.int (m.tdiv n)) st2) := by
  refine ⟨?_, ?_, ?_⟩
  · intro f args bindings envId st h
    rcases args with _ | ⟨a1, _ | ⟨a2, _ | ⟨a3, rest⟩⟩⟩
    · simp [evalPrim, throw_apply]
    · simp [evalPrim, throw_apply]
    · simp at h
    · simp [evalPrim, throw_apply]
  · intro f a0 a1 bindings envId st v1 st1 v2 st2 h1 h2
    constructor
    · intro heq
      by_cases hz : v2 = .int 0 ∨ ∃ d, v2 = .float d ∧ d.m = 0
      · exact hz
      · exfalso
        have hdz : (match v2 with
            | .int i => decide (i = 0)
            | .float d => decide (d.m = 0)
            | _ => false) = false := by
          cases v2 with
          | int i =>
            have : i ≠ 0 := fun hh => hz (Or.inl (by rw [hh]))
            simpa using this
          | float d =>
            have : d.m ≠ 0 := fun hh => hz (Or.inr ⟨d, rfl, hh⟩)
            simpa using this
          | str s => rfl
          | lit l => rfl
          | list l => rfl
          | sym n vv => rfl
          | prim p a2 => rfl
          | proc p b2 e2 => rfl
        simp only [evalPrim, bind_apply, h1, h2, hdz, Bool.false_eq_true,
          if_false] at heq
        cases v1 <;> cases v2 <;> simp_all [pure_apply, throw_apply]
    · rintro (rfl | ⟨d, rfl, hd⟩)
      · simp [evalPrim, bind_apply, h1, h2, throw_apply]
      · simp [evalPrim, bind_apply, h1, h2, hd, throw_apply]
  · intro f a0 a1 bindings envId st m st1 n st2 h1 h2 hn
    simp only [evalPrim, bind_apply, h1, h2]
    have : (decide (n = 0)) = false := by simpa using hn
    simp only [this, Bool.false_eq_true, if_false, pure_apply]

/-- Claim C9: `make_proc_call` throws "Too few arguments for procedure
call" for every token sequence of length below 2, before any token is
built — the statement quantifies over every possible AST builder `B` —
so a call form with zero arguments (one token) can never invoke a
closure; yet `lambda` with an empty parameter list does construct a
procedure value. -/
theorem C9_nullary_call :
    (∀ B f tokens envId st, tokens.length < 2 →
        makeProcCall B f tokens envId st
          = .error "Too few arguments for procedure call" st)
    ∧ (∀ f body bindings envId st,
        evalPrim (f+1) .LAMBDA [.list [], body] bindings envId st
          = .ok (.proc (.list []) body envId) st) := by
  constructor
  · intro B f tokens envId st h
    unfold makeProcCall
    rw [if_pos h]
    exact throw_apply _ _
  · intro f body bindings envId st
    rfl

/-- Claim C10: `(boolean? x)` evaluates to `Lit TRUE` exactly when the
argument's value has the `Lit` tag — which includes `nil` — and to
`Lit FALSE` for every other tag; see the witness for `(boolean? nil)`
being true. -/
theorem C10_boolean_pred :
    ∀ f a0 bindings envId st v st2,
      evalExpr f a0 bindings envId st = .ok v st2 →
      ((∃ l, v = .lit l) →
        evalPrim (f+1) .IS_BOOL [a0] bindings envId st = .ok (.lit .TRUE) st2)
      ∧ ((∀ l, v ≠ .lit l) →
        evalPrim (f+1) .IS_BOOL [a0] bindings envId st = .ok (.lit .FALSE) st2) := by
  intro f a0 bindings envId st v st2 h
  constructor
  · rintro ⟨l, rfl⟩
    simp only [evalPrim, bind_apply, h, pure_apply]
  · intro hl
    cases v with
    | lit l => exact absurd rfl (hl l)
    | int i => simp only [evalPrim, bind_apply, h, pure_apply]
    | float d => simp only [evalPrim, bind_apply, h, pure_apply]
    | str s => simp only [evalPrim, bind_apply, h, pure_apply]
    | list l2 => simp only [evalPrim, bind_apply, h, pure_apply]
    | sym n vv => simp only [evalPrim, bind_apply, h, pure_apply]
    | prim p a2 => simp only [evalPrim, bind_apply, h, pure_apply]
    | proc p b2 e2 => simp only [evalPrim, bind_apply, h, pure_apply]



lemma bitLenAux_zero (f : Nat) : bitLenAux f 0 = 0 := by
  cases f <;> simp [bitLenAux]

lemma bitLenAux_lt : ∀ f n, n ≤ f → n < 2 ^ bitLenAux f n := by
  intro f
  induction f with
  | zero =>
    intro n hn
    interval_cases n
    simp [bitLenAux]
  | succ f ih =>
    intro n hn
    by_cases h0 : n = 0
    · subst h0
      simp [bitLenAux]
    · have hrec : n / 2 ≤ f := by omega
      have := ih (n / 2) hrec
      simp only [bitLenAux, if_neg h0]
      rw [pow_succ]
      omega

lemma bitLenAux_pos : ∀ f n, n ≤ f → n ≠ 0 → 1 ≤ bitLenAux f n := by
  intro f n hn h0
  cases f with
  | zero => omega
  | succ f => simp [bitLenAux, h0]

lemma bitLenAux_ge : ∀ f n, n ≤ f → n ≠ 0 → 2 ^ (bitLenAux f n - 1) ≤ n := by
  intro f
  induction f with
  | zero => intro n hn h0; omega
  | succ f ih =>
    intro n hn h0
    simp only [bitLenAux, if_neg h0, Nat.add_sub_cancel]
    by_cases h2 : n / 2 = 0
    · rw [h2, bitLenAux_zero]
      · omega
    · have hrec : n / 2 ≤ f := by omega
      have hge := ih (n / 2) hrec h2
      have hpos := bitLenAux_pos f (n / 2) hrec h2
      obtain ⟨L, hL⟩ : ∃ L, bitLenAux f (n / 2) = L + 1 :=
        ⟨bitLenAux f (n / 2) - 1, by omega⟩
      rw [hL]
      rw [hL, Nat.add_sub_cancel] at hge
      rw [pow_succ]
      omega

lemma bitLen_lt_pow (n : Nat) : n < 2 ^ bitLen n := bitLenAux_lt n n le_rfl

lemma bitLen_ge_pow (n : Nat) (h : n ≠ 0) : 2 ^ (bitLen n - 1) ≤ n :=
  bitLenAux_ge n n le_rfl h

lemma bitLen_le_of_lt_pow {n k : Nat} (h : n < 2 ^ k) : bitLen n ≤ k := by
  by_cases h0 : n = 0
  · subst h0; simp [bitLen, bitLenAux]
  · have h1 := bitLen_ge_pow n h0
    have h2 : 2 ^ (bitLen n - 1) < 2 ^ k := lt_of_le_of_lt h1 h
    have h3 : bitLen n - 1 < k := (Nat.pow_lt_pow_iff_right (by omega)).mp h2
    have h4 : 1 ≤ bitLen n := bitLenAux_pos n n le_rfl h0
    omega

lemma bitLen_eq_succ {n k : Nat} (h1 : 2 ^ k ≤ n) (h2 : n < 2 ^ (k + 1)) :
    bitLen n = k + 1 := by
  have h0 : n ≠ 0 := by
    have : 0 < 2 ^ k := Nat.pos_pow_of_pos k (by omega)
    omega
  have hle := bitLen_le_of_lt_pow h2
  have hlt := bitLen_lt_pow n
  have hgt : k < bitLen n := by
    have := lt_of_le_of_lt h1 hlt
    exact (Nat.pow_lt_pow_iff_right (by omega)).mp this
  omega


lemma flDy_id_of_lt (m e : Int) (h : m.natAbs < 2 ^ 53) : flDy m e = ⟨m, e⟩ := by
  have hk : bitLen m.natAbs - 53 = 0 := by
    have := bitLen_le_of_lt_pow h
    omega
  unfold flDy
  simp [hk]

lemma flDy_rep (m e : Int) (he : 0 ≤ e) (h : m.natAbs ≤ 2 ^ 53) :
    DyRep (flDy m e) (m * 2 ^ e.toNat) := by
  rcases lt_or_eq_of_le h with hlt | heq
  · rw [flDy_id_of_lt m e hlt]
    exact ⟨he, rfl, le_of_lt hlt⟩
  · have hm0 : m ≠ 0 := by
      intro h0
      rw [h0] at heq
      norm_num at heq
    have hbl : bitLen m.natAbs = 54 := by
      rw [heq]
      exact bitLen_eq_succ (le_refl _) (by norm_num)
    have hk : bitLen m.natAbs - 53 = 1 := by omega
    have hdne : divNearestEven m.natAbs (2 ^ 1) = 2 ^ 52 := by
      rw [heq]
      unfold divNearestEven
      norm_num
    have hfl : flDy m e = ⟨m.sign * (2 ^ 52 : Int), e + 1⟩ := by
      simp only [flDy, hk, hdne]
      norm_num
    rw [hfl]
    refine ⟨?_, ?_, ?_⟩
    · show (0:Int) ≤ e + 1
      omega
    · show m.sign * (2 ^ 52 : Int) * 2 ^ (e + 1).toNat = m * 2 ^ e.toNat
      have ht : (e + 1).toNat = e.toNat + 1 := by omega
      have hsgn : m.sign * ((m.natAbs : Nat) : Int) = m := Int.sign_mul_natAbs m
      rw [heq] at hsgn
      push_cast at hsgn
      rw [ht, pow_succ]
      linear_combination (2 ^ e.toNat : ℤ) * hsgn
    · show (m.sign * (2 ^ 52 : Int)).natAbs ≤ 2 ^ 53
      rw [Int.natAbs_mul, Int.natAbs_sign_of_nonzero hm0]
      norm_num

lemma rep_intToDy (z : Int) (h : z.natAbs ≤ 2 ^ 53) : DyRep (intToDy z) z := by
  have := flDy_rep z 0 le_rfl h
  simpa [intToDy] using this

lemma rep_one : DyRep ⟨1, 0⟩ 1 := ⟨le_rfl, by norm_num, by norm_num⟩

lemma rep_zero : DyRep ⟨0, 0⟩ 0 := ⟨le_rfl, by norm_num, by norm_num⟩

lemma rep_mulDy {x y : Dy} {zx zy : Int} (hx : DyRep x zx) (hy : DyRep y zy)
    (h : (zx * zy).natAbs ≤ 2 ^ 53) : DyRep (mulDy x y) (zx * zy) := by
  obtain ⟨hex, hvx, hmx⟩ := hx
  obtain ⟨hey, hvy, hmy⟩ := hy
  have ht : (x.e + y.e).toNat = x.e.toNat + y.e.toNat := by omega
  have hval : (x.m * y.m) * 2 ^ (x.e + y.e).toNat = zx * zy := by
    rw [ht, pow_add, ← hvx, ← hvy]
    ring
  have hmant : (x.m * y.m).natAbs ≤ 2 ^ 53 := by
    have habs : ((2:Int) ^ (x.e + y.e).toNat).natAbs = 2 ^ (x.e + y.e).toNat := by
      simp [Int.natAbs_pow]
    have h1 : (zx * zy).natAbs = (x.m * y.m).natAbs * 2 ^ (x.e + y.e).toNat := by
      conv_lhs => rw [← hval]
      rw [Int.natAbs_mul, habs]
    have h2 : 1 ≤ 2 ^ (x.e + y.e).toNat := Nat.one_le_two_pow
    nlinarith [h1, h2]
  have := flDy_rep (x.m * y.m) (x.e + y.e) (by omega) hmant
  unfold mulDy
  rw [hval] at this
  exact this

lemma rep_addDy {x y : Dy} {zx zy : Int} (hx : DyRep x zx) (hy : DyRep y zy)
    (h : (zx + zy).natAbs ≤ 2 ^ 53) : DyRep (addDy x y) (zx + zy) := by
  obtain ⟨hex, hvx, hmx⟩ := hx
  obtain ⟨hey, hvy, hmy⟩ := hy
  unfold addDy
  by_cases hle : x.e ≤ y.e
  · rw [if_pos hle]
    have ht : (y.e - x.e).toNat + x.e.toNat = y.e.toNat := by omega
    have hval : (x.m + y.m * 2 ^ (y.e - x.e).toNat) * 2 ^ x.e.toNat = zx + zy := by
      rw [add_mul, mul_assoc, ← pow_add, ht, hvx, hvy]
    have hmant : (x.m + y.m * 2 ^ (y.e - x.e).toNat).natAbs ≤ 2 ^ 53 := by
      have habs : ((2:Int) ^ x.e.toNat).natAbs = 2 ^ x.e.toNat := by
        simp [Int.natAbs_pow]
      have h1 : (zx + zy).natAbs
          = (x.m + y.m * 2 ^ (y.e - x.e).toNat).natAbs * 2 ^ x.e.toNat := by
        conv_lhs => rw [← hval]
        rw [Int.natAbs_mul, habs]
      have h2 : 1 ≤ 2 ^ x.e.toNat := Nat.one_le_two_pow
      nlinarith [h1, h2]
    have := flDy_rep _ x.e hex hmant
    rw [hval] at this
    exact this
  · rw [if_neg hle]
    have ht : (x.e - y.e).toNat + y.e.toNat = x.e.toNat := by omega
    have hval : (x.m * 2 ^ (x.e - y.e).toNat + y.m) * 2 ^ y.e.toNat = zx + zy := by
      rw [add_mul, mul_assoc, ← pow_add, ht, hvx, hvy]
    have hmant : (x.m * 2 ^ (x.e - y.e).toNat + y.m).natAbs ≤ 2 ^ 53 := by
      have habs : ((2:Int) ^ y.e.toNat).natAbs = 2 ^ y.e.toNat := by
        simp [Int.natAbs_pow]
      have h1 : (zx + zy).natAbs
          = (x.m * 2 ^ (x.e - y.e).toNat + y.m).natAbs * 2 ^ y.e.toNat := by
        conv_lhs => rw [← hval]
        rw [Int.natAbs_mul, habs]
      have h2 : 1 ≤ 2 ^ y.e.toNat := Nat.one_le_two_pow
      nlinarith [h1, h2]
    have := flDy_rep _ y.e hey hmant
    rw [hval] at this
    exact this

lemma flDy_e_nonneg (m e : Int) (he : 0 ≤ e) : 0 ≤ (flDy m e).e := by
  simp only [flDy]
  split
  · exact he
  · simp only []
    omega

lemma rep_mulDy_zero {x : Dy} (hx : DyRep x 0) (y : Dy) (hy : 0 ≤ y.e) :
    DyRep (mulDy x y) 0 := by
  obtain ⟨hex, hvx, _⟩ := hx
  have hm0 : x.m = 0 := by
    rcases mul_eq_zero.mp hvx with h | h
    · exact h
    · exact absurd h (by positivity)
  unfold mulDy
  rw [hm0, zero_mul]
  rw [flDy_id_of_lt 0 _ (by norm_num)]
  exact ⟨by simp; omega, by simp, by norm_num⟩

lemma rep_out {d : Dy} {z : Int} (h : DyRep d z) :
    dyIsInt d = true ∧ dyToInt d = z := by
  obtain ⟨he, hv, _⟩ := h
  unfold dyIsInt dyToInt
  rw [if_pos he, if_pos he]
  exact ⟨rfl, hv⟩

lemma natAbs_tmod (a b : Int) : (a.tmod b).natAbs = a.natAbs % b.natAbs := by
  cases a <;> cases b <;> simp only [Int.tmod, Int.natAbs_neg] <;> rfl



/-- Claim C1 (amended): for integers `a`, `b` with `b ≠ 0` and
`|a| ≤ 2 ^ 53`, evaluating `(+ (* (/ a b) b) (mod a b))` yields `Int a`:
the truncating division and modulo recombine to the dividend, and every
value reaching the double-precision accumulators of `+` and `*` is
exactly representable in binary64, so no rounding occurs.  The original
claim quantifies over all 64-bit integers and is false: the conversion
int64→double rounds above `2 ^ 53`, see the counterexample. -/
theorem C1_div_mul_mod_identity :
    ∀ f a b bindings envId st, a.natAbs ≤ 2 ^ 53 → b ≠ 0 →
      evalExpr (f+9)
          (.prim .ADD [.prim .MUL [.prim .DIV [.int a, .int b], .int b],
                       .prim .MOD [.int a, .int b]]) bindings envId st
        = .ok (.int a) st := by
  intro f a b bindings envId st ha hb
  have hb0 : (decide (b = 0)) = false := by simpa using hb
  have hqAbs : (a.tdiv b).natAbs ≤ 2 ^ 53 := by
    rw [Int.natAbs_tdiv]
    exact le_trans (Nat.div_le_self _ _) ha
  have hm0Abs : (a.tmod b).natAbs ≤ 2 ^ 53 := by
    rw [natAbs_tmod]
    exact le_trans (Nat.mod_le _ _) ha
  have hqbAbs : ((a.tdiv b) * b).natAbs ≤ 2 ^ 53 := by
    rw [Int.natAbs_mul, Int.natAbs_tdiv]
    exact le_trans (Nat.div_mul_le_self _ _) ha
  have hsum : (a.tdiv b) * b + a.tmod b = a := by
    rw [mul_comm]
    exact Int.tdiv_add_tmod a b
  have hrep_p2 : DyRep (mulDy (mulDy ⟨1, 0⟩ (intToDy (a.tdiv b))) (intToDy b))
      ((a.tdiv b) * b) := by
    by_cases hble : b.natAbs ≤ 2 ^ 53
    · have r1 : DyRep (mulDy ⟨1, 0⟩ (intToDy (a.tdiv b))) (a.tdiv b) := by
        have := rep_mulDy rep_one (rep_intToDy _ hqAbs) (by simpa using hqAbs)
        simpa using this
      exact rep_mulDy r1 (rep_intToDy b hble) hqbAbs
    · have hq0 : a.tdiv b = 0 := by
        have hlt : a.natAbs < b.natAbs := by omega
        have h0 : (a.tdiv b).natAbs = 0 := by
          rw [Int.natAbs_tdiv]
          exact Nat.div_eq_of_lt hlt
        exact Int.natAbs_eq_zero.mp h0
      rw [hq0, zero_mul]
      have r1 : DyRep (mulDy ⟨1, 0⟩ (intToDy 0)) 0 := by
        have := rep_mulDy rep_one (rep_intToDy 0 (by norm_num)) (by norm_num)
        simpa using this
      exact rep_mulDy_zero r1 _ (flDy_e_nonneg b 0 le_rfl)
  obtain ⟨hIsInt_p2, hToInt_p2⟩ := rep_out hrep_p2
  have hrep_s2 : DyRep (addDy (addDy ⟨0, 0⟩ (intToDy ((a.tdiv b) * b)))
      (intToDy (a.tmod b))) a := by
    have r1 : DyRep (addDy ⟨0, 0⟩ (intToDy ((a.tdiv b) * b))) ((a.tdiv b) * b) := by
      have := rep_addDy rep_zero (rep_intToDy _ hqbAbs) (by simpa using hqbAbs)
      simpa using this
    have r2 := rep_addDy r1 (rep_intToDy _ hm0Abs) (by rw [hsum]; exact ha)
    rwa [hsum] at r2
  obtain ⟨hIsInt_s2, hToInt_s2⟩ := rep_out hrep_s2
  have hdiv : evalExpr (f+1+1+1) (.prim .DIV [.int a, .int b]) bindings envId st
      = .ok (.int (a.tdiv b)) st := by
    have hstep : evalExpr (f+1+1+1) (.prim .DIV [.int a, .int b]) bindings envId st
        = evalPrim (f+1+1) .DIV [.int a, .int b] bindings envId st := rfl
    rw [hstep]
    have h1 : evalExpr (f+1) (.int a) bindings envId st = .ok (.int a) st := rfl
    have h2 : evalExpr (f+1) (.int b) bindings envId st = .ok (.int b) st := rfl
    simp only [evalPrim, bind_apply, h1, h2, hb0, Bool.false_eq_true, if_false,
      pure_apply]
  have hmod : evalExpr (f+1+1+1+1+1) (.prim .MOD [.int a, .int b]) bindings envId st
      = .ok (.int (a.tmod b)) st := by
    have hstep : evalExpr (f+1+1+1+1+1) (.prim .MOD [.int a, .int b]) bindings envId st
        = evalPrim (f+1+1+1+1) .MOD [.int a, .int b] bindings envId st := rfl
    rw [hstep]
    have h1 : evalExpr (f+1+1+1) (.int a) bindings envId st = .ok (.int a) st := rfl
    have h2 : evalExpr (f+1+1+1) (.int b) bindings envId st = .ok (.int b) st := rfl
    simp only [evalPrim, bind_apply, h1, h2, hb0, Bool.false_eq_true, if_false,
      pure_apply]
  have hmul : evalExpr (f+1+1+1+1+1+1)
      (.prim .MUL [.prim .DIV [.int a, .int b], .int b]) bindings envId st
      = .ok (.int ((a.tdiv b) * b)) st := by
    have hstep : evalExpr (f+1+1+1+1+1+1)
        (.prim .MUL [.prim .DIV [.int a, .int b], .int b]) bindings envId st
        = evalPrim (f+1+1+1+1+1) .MUL [.prim .DIV [.int a, .int b], .int b]
            bindings envId st := rfl
    rw [hstep]
    have hintb : evalExpr (f+1+1) (.int b) bindings envId st = .ok (.int b) st := rfl
    simp only [evalPrim, evalMulLoop, bind_apply, hdiv, hintb, pure_apply,
      hIsInt_p2, if_true, hToInt_p2]
  show evalExpr (f+1+1+1+1+1+1+1+1+1)
      (.prim .ADD [.prim .MUL [.prim .DIV [.int a, .int b], .int b],
                   .prim .MOD [.int a, .int b]]) bindings envId st
    = .ok (.int a) st
  have hstep : evalExpr (f+1+1+1+1+1+1+1+1+1)
      (.prim .ADD [.prim .MUL [.prim .DIV [.int a, .int b], .int b],
                   .prim .MOD [.int a, .int b]]) bindings envId st
      = evalPrim (f+1+1+1+1+1+1+1+1) .ADD
          [.prim .MUL [.prim .DIV [.int a, .int b], .int b],
           .prim .MOD [.int a, .int b]] bindings envId st := rfl
  rw [hstep]
  simp only [evalPrim, evalAddLoop, bind_apply, hmul, hmod, pure_apply,
    hIsInt_s2, if_true, hToInt_s2]

/-- Claim C1, counterexample to the original statement: at
`a = 2 ^ 53 + 1`, `b = 1`, the conversion of `a` to double inside the `*`
accumulator rounds to `2 ^ 53` (round-to-nearest, ties-to-even drops the
low bit), so the whole expression evaluates to `Int (2 ^ 53) ≠ Int a`. -/
theorem C1_div_mul_mod_counterexample :
    evalExpr 12 (.prim .ADD [.prim .MUL [.prim .DIV [.int (2 ^ 53 + 1), .int 1],
        .int 1], .prim .MOD [.int (2 ^ 53 + 1), .int 1]]) none 0 []
      = .ok (.int (2 ^ 53)) []
    ∧ ((2 ^ 53 : Int)) ≠ 2 ^ 53 + 1 := ⟨rfl, by norm_num⟩



/-- Claim C7 (amended): in file-evaluation mode, when evaluation of a
top-level form fails, one diagnostic is recorded and the *remaining forms
of the same file are abandoned* — the source wraps the whole per-file
loop in a single try/catch — while the loop over files continues with the
next file against the same global environment (including any bindings
made before the failure).  The original claim, that evaluation continues
with the next form of the same file, is refuted by the counterexample. -/
theorem C7_file_mode_abort :
    (∀ f form rest envId st msg st2 t args,
        form = .prim t args →
        evalExpr (f+1) form none envId st = .error msg st2 →
        evalFormsInFile f (form :: rest) envId st = ([Output.err msg], st2))
    ∧ (∀ f file files envId st outs st2 outsFiles st3,
        evalFormsInFile f file envId st = (outs, st2) →
        evalFiles f files envId st2 = (outsFiles, st3) →
        evalFiles f (file :: files) envId st = (outs :: outsFiles, st3)) := by
  constructor
  · intro f form rest envId st msg st2 t args hform herr
    subst hform
    simp only [evalFormsInFile, herr]
  · intro f file files envId st outs st2 outsFiles st3 h1 h2
    simp only [evalFiles, h1, h2]

/-- Claim C7, counterexample to the original statement: a file whose
first form fails with "Division by zero" produces only the diagnostic —
the following `(define "x" 5)` form of the same file is never evaluated
(the store keeps no binding for `"x"`), although evaluated on its own it
would bind `"x"`. -/
theorem C7_file_mode_counterexample :
    evalFormsInFile 10
        [.prim .DIV [.int 1, .int 0], .prim .DEFINE [.str "x", .int 5]] 0
        [⟨[], none⟩]
      = ([Output.err "Division by zero"], [⟨[], none⟩])
    ∧ evalFormsInFile 10 [.prim .DEFINE [.str "x", .int 5]] 0 [⟨[], none⟩]
      = ([Output.val (.lit .NIL)], [⟨[("x", some (.int 5))], none⟩]) := ⟨rfl, rfl⟩

/-- Claim C8: printing a `List` value is well-defined only for non-empty
lists, which print as the element renderings joined by single spaces
inside parentheses; for the empty `List` the loop bound
`list->size() - 1` underflows and `list->at(0)` indexes an empty vector,
modelled as the undefined outcome `none` — the empty list is not handled
as `()`. -/
theorem C8_print_list :
    (∀ f, printExprF (f+1) (.list []) = none)
    ∧ (∀ f l parts, l ≠ [] → printListF f l = some parts →
        printExprF (f+1) (.list l)
          = some ("(" ++ String.intercalate " " parts ++ ")"))
    ∧ (∀ f e rest se srest, printExprF f e = some se →
        printListF f rest = some srest →
        printListF (f+1) (e :: rest) = some (se :: srest)) := by
  refine ⟨?_, ?_, ?_⟩
  · intro f
    rfl
  · intro f l parts hne hp
    cases l with
    | nil => exact absurd rfl hne
    | cons a rest => simp only [printExprF, hp]
  · intro f e rest se srest h1 h2
    simp only [printListF, h1, h2]



/-- Witness for claim C1 at `a = 10`, `b = 3`. -/
theorem C1_div_mul_mod_identity_witness :
    evalExpr 9 (.prim .ADD [.prim .MUL [.prim .DIV [.int 10, .int 3], .int 3],
        .prim .MOD [.int 10, .int 3]]) none 0 [] = .ok (.int 10) [] :=
  C1_div_mul_mod_identity 0 10 3 none 0 [] (by norm_num) (by norm_num)

/-- Witness for claim C2: `(if #f 1 2)` picks the else branch,
`(if 0.5 1 2)` picks the then branch, and an `if` of arity 2 is an
arity error. -/
theorem C2_if_semantics_witness :
    evalPrim 2 .IF [.lit .FALSE, .int 1, .int 2] none 0 []
      = evalExpr 1 (.int 2) none 0 []
    ∧ evalPrim 2 .IF [.float ⟨1, -1⟩, .int 1, .int 2] none 0 []
      = evalExpr 1 (.int 1) none 0 []
    ∧ evalPrim 1 .IF [.int 1, .int 2] none 0 []
      = .error "Invalid num args for 'if'" [] :=
  ⟨(C2_if_semantics.2.2 1 (.lit .FALSE) (.int 1) (.int 2) none 0 []
      (.lit .FALSE) [] rfl).2 (by simp),
   (C2_if_semantics.2.2 1 (.float ⟨1, -1⟩) (.int 1) (.int 2) none 0 []
      (.float ⟨1, -1⟩) [] rfl).1 (Or.inr (Or.inr ⟨⟨1, -1⟩, rfl, by norm_num⟩)),
   C2_if_semantics.1 0 [.int 1, .int 2] none 0 [] (by simp)⟩

/-- Witness for claim C3: `set!` of an unbound name fails, `set!` of a
bound name rebinds in the current frame. -/
theorem C3_set_semantics_witness :
    evalPrim 2 .SET [.str "y", .int 7] none 0 [⟨[("x", some (.int 1))], none⟩]
      = .error "Unbounded variable 'y'" [⟨[("x", some (.int 1))], none⟩]
    ∧ evalPrim 2 .SET [.str "x", .int 7] none 0 [⟨[("x", some (.int 1))], none⟩]
      = .ok (.lit .NIL)
          (addKeyValuePair [⟨[("x", some (.int 1))], none⟩] 0 "x" (some (.int 7))) :=
  ⟨(C3_set_semantics.1 1 (.str "y") (.int 7) none 0
      [⟨[("x", some (.int 1))], none⟩] "y" [⟨[("x", some (.int 1))], none⟩] rfl).1 rfl,
   (C3_set_semantics.1 1 (.str "x") (.int 7) none 0
      [⟨[("x", some (.int 1))], none⟩] "x" [⟨[("x", some (.int 1))], none⟩] rfl).2 rfl⟩

/-- Witness for claim C4 at `x = 1`, `l` the two-element list `(7 8)`. -/
theorem C4_cdr_cons_list_witness :
    evalExpr 5 (.prim .CDR [.prim .CONS [.int 1, .list [.int 7, .int 8]]]) none 0 []
      = .ok (.list [.int 7, .int 8]) [] :=
  C4_cdr_cons_list 1 (.int 1) (.list [.int 7, .int 8]) none 0 [] (.int 1) []
    [.int 7, .int 8] [] rfl (by simp) rfl (by simp)

/-- Witness for claim C5: define `x` as `5`, then look `x` up. -/
theorem C5_define_semantics_witness :
    evalPrim 2 .DEFINE [.str "x", .int 5] none 0 [⟨[], none⟩]
      = .ok (.lit .NIL) (addKeyValuePair [⟨[], none⟩] 0 "x" (some (.int 5)))
    ∧ evalExpr 2 (.sym "x" none) none 0
        (addKeyValuePair [⟨[], none⟩] 0 "x" (some (.int 5)))
      = evalExpr 1 (.int 5) none 0
        (addKeyValuePair [⟨[], none⟩] 0 "x" (some (.int 5))) :=
  ⟨C5_define_semantics.1 1 (.str "x") (.int 5) none 0 [⟨[], none⟩] "x"
      [⟨[], none⟩] rfl,
   C5_define_semantics.2 1 (.int 5) none 0 [⟨[], none⟩] "x" ⟨[], none⟩ none rfl⟩

/-- Witness for claim C6: `(/ 10 3)` is `3`, `(/ 1 0)` is a
division-by-zero failure. -/
theorem C6_div_semantics_witness :
    evalPrim 2 .DIV [.int 10, .int 3] none 0 [] = .ok (.int 3) []
    ∧ evalPrim 2 .DIV [.int 1, .int 0] none 0 [] = .error "Division by zero" [] :=
  ⟨C6_div_semantics.2.2 1 (.int 10) (.int 3) none 0 [] 10 [] 3 [] rfl rfl
      (by norm_num),
   (C6_div_semantics.2.1 1 (.int 1) (.int 0) none 0 [] (.int 1) [] (.int 0) []
      rfl rfl).2 (Or.inl rfl)⟩

/-- Witness for claim C7: a two-form file stopping at the first failure,
and a two-file run whose second file still executes. -/
theorem C7_file_mode_abort_witness :
    evalFormsInFile 10
        [.prim .DIV [.int 1, .int 0], .prim .DEFINE [.str "x", .int 5]] 0 []
      = ([Output.err "Division by zero"], [])
    ∧ evalFiles 10
        [[.prim .DIV [.int 1, .int 0]], [.prim .DEFINE [.str "x", .int 5]]] 0
        [⟨[], none⟩]
      = ([[Output.err "Division by zero"], [Output.val (.lit .NIL)]],
         [⟨[("x", some (.int 5))], none⟩]) :=
  ⟨C7_file_mode_abort.1 10 (.prim .DIV [.int 1, .int 0])
      [.prim .DEFINE [.str "x", .int 5]] 0 [] "Division by zero" []
      .DIV [.int 1, .int 0] rfl rfl,
   C7_file_mode_abort.2 10 [.prim .DIV [.int 1, .int 0]]
      [[.prim .DEFINE [.str "x", .int 5]]] 0 [⟨[], none⟩]
      [Output.err "Division by zero"] [⟨[], none⟩]
      [[Output.val (.lit .NIL)]] [⟨[("x", some (.int 5))], none⟩] rfl rfl⟩

/-- Witness for claim C8: `(1 2)` prints with a single space. -/
theorem C8_print_list_witness :
    printExprF 4 (.list [.int 1, .int 2]) = some "(1 2)"
    ∧ printListF 3 [.int 1, .int 2] = some ["1", "2"] :=
  ⟨C8_print_list.2.1 3 [.int 1, .int 2] ["1", "2"] (by simp) rfl,
   C8_print_list.2.2 2 (.int 1) [.int 2] "1" ["2"] rfl rfl⟩

/-- Witness for claim C9: the one-token call form `(f)` is refused, and
a lambda of no parameters still evaluates to a procedure value. -/
theorem C9_nullary_call_witness :
    makeProcCall (fun _ => throw "unused") 5 ["f"] 0 []
      = .error "Too few arguments for procedure call" []
    ∧ evalPrim 1 .LAMBDA [.list [], .int 1] none 0 []
      = .ok (.proc (.list []) (.int 1) 0) [] :=
  ⟨C9_nullary_call.1 (fun _ => throw "unused") 5 ["f"] 0 [] (by decide),
   C9_nullary_call.2 0 (.int 1) none 0 []⟩

/-- Witness for claim C10: `(boolean? nil)` is true, `(boolean? 3)` is
false. -/
theorem C10_boolean_pred_witness :
    evalPrim 2 .IS_BOOL [.lit .NIL] none 0 [] = .ok (.lit .TRUE) []
    ∧ evalPrim 2 .IS_BOOL [.int 3] none 0 [] = .ok (.lit .FALSE) [] :=
  ⟨(C10_boolean_pred 1 (.lit .NIL) none 0 [] (.lit .NIL) [] rfl).1 ⟨.NIL, rfl⟩,
   (C10_boolean_pred 1 (.int 3) none 0 [] (.int 3) [] rfl).2 (by simp)⟩

end Nscm
